import Mathlib

/-!
Verification of the GUI description builder (package `gui`, file `builder.go`).

The development shallowly embeds the builder: each Go function becomes a Lean
definition of the same name (`parseFloats`, `parseBorderSizes`, `parseColor`,
`build`, `buildPanel`, `buildLabel`, `buildEdit`, `Build`, `ParseString`).
External collaborators that are not part of the translated file are passed in
as explicit function arguments:
  - `pf` models `strconv.ParseFloat(·, 32)` (success value of abstract
    component type `A`, or the strconv error text);
  - `cu` models `math32.ColorUint` (the packed color value of a name, 0 when
    the name is unknown);
  - `sn` models `math32.Color.SetName` (the r,g,b components of a name);
  - a `Yaml` record models the two `yaml.Unmarshal` target shapes used by
    `ParseString`.
Go's `(value, error)` pairs are kept as pairs of options where the pair shape
matters (the builder), and as `Except` where the two are exclusive (the
parsers).  A Go runtime panic (out-of-range slice index) is a distinct
`GoRes.panic` outcome.  `fmt.Printf`/`log.Error` calls are pure output and are
not modelled.
-/

namespace GuiBuilder

/-- Errors built by builder.go, one constructor per `fmt.Errorf` site,
carrying exactly the values the Go format string interpolates. -/
inductive GoErr where
  /-- an error returned unchanged from `yaml.Unmarshal` -/
  | yamlErr (msg : String)
  /-- Build: "Object name:%s not found" -/
  | objNotFound (name : String)
  /-- build: "Invalid panel type:%s" -/
  | invalidType (t : String)
  /-- the err helper: "Error in object:%s field:%s -> %s" -/
  | fieldErr (pname fname msg : String)
  /-- parseFloats: "Error parsing float32 field:[%s]: %s" -/
  | floatFormat (field cause : String)
deriving DecidableEq

/-- The exact message text of each error, as the Go format strings render it. -/
def msgOf : GoErr → String
  | .yamlErr m => m
  | .objNotFound n => "Object name:" ++ n ++ " not found"
  | .invalidType t => "Invalid panel type:" ++ t
  | .fieldErr p f m => "Error in object:" ++ p ++ " field:" ++ f ++ " -> " ++ m
  | .floatFormat f c => "Error parsing float32 field:[" ++ f ++ "]: " ++ c

/-- Substring test, used to state which context an error message carries. -/
def containsStr (msg sub : String) : Prop :=
  List.IsInfix sub.data msg.data

instance (msg sub : String) : Decidable (containsStr msg sub) :=
  List.decidableInfix sub.data msg.data

instance {E B : Type} [DecidableEq E] [DecidableEq B] : DecidableEq (Except E B)
  | .error a, .error b =>
    if h : a = b then isTrue (by rw [h]) else isFalse (by intro hh; cases hh; exact h rfl)
  | .error _, .ok _ => isFalse (by intro hh; cases hh)
  | .ok _, .error _ => isFalse (by intro hh; cases hh)
  | .ok a, .ok b =>
    if h : a = b then isTrue (by rw [h]) else isFalse (by intro hh; cases hh; exact h rfl)

/-- Outcome of running a Go function: a normal return value or a runtime panic. -/
inductive GoRes (β : Type) where
  | ret (val : β)
  | panic (msg : String)
deriving DecidableEq

/-- Models `strings.Trim(s, " ")`: strips leading and trailing space
characters (only U+0020, the cutset the Go code passes). -/
def stringsTrim (s : String) : String :=
  String.mk (List.rdropWhile (fun c => c = ' ') (s.data.dropWhile (fun c => c = ' ')))


/-- Character-level split used to model `strings.Split(s, sep)` for the
one-character separators the Go code passes ("," and " "): splits at every
occurrence of the separator, keeping empty fields. -/
def splitChar (sep : Char) : List Char → List (List Char)
  | [] => [[]]
  | c :: rest =>
    let r := splitChar sep rest
    if c = sep then [] :: r
    else
      match r with
      | [] => [[c]]
      | t :: ts => (c :: t) :: ts

/-- Models `strings.Split(s, String.mk [sep])`. -/
def stringsSplit (s : String) (sep : Char) : List String :=
  (splitChar sep s.data).map String.mk

/-- Models `strings.Index(s, String.mk [c]) >= 0`: does `c` occur in `s`. -/
def containsChar (s : String) (c : Char) : Bool :=
  s.data.any (fun x => x = c)


/-- Field name constants of builder.go (lines 70-79). -/
def descTypePanel : String := "Panel"

def descTypeLabel : String := "Label"

def descTypeEdit : String := "Edit"

def fieldMargins : String := "margins"

def fieldBorders : String := "borders"

def fieldBorderColor : String := "bordercolor"

def fieldPaddings : String := "paddings"

def fieldColor : String := "color"

/-- A four-sided size set (the repo's `BorderSizes` value, which is not part
of the translated file).  Modelled from the spec: four per-side magnitudes in
the fixed order top, right, bottom, left. -/
structure BorderSizes (A : Type) where
  top : A
  right : A
  bottom : A
  left : A
deriving DecidableEq

/-- A four-component color (the repo's `math32.Color4`, not part of the
translated file).  Modelled from the spec: three or four components, alpha
last. -/
structure Color4 (A : Type) where
  r : A
  g : A
  b : A
  a : A
deriving DecidableEq

/-- The per-token loop of parseFloats (lines 352-359): parse each part with
`strconv.ParseFloat` (the oracle `pf`), failing fast on the first bad token
with the format error, which interpolates the whole `field` text and the
strconv cause. -/
def parseVals {A : Type} (pf : String → Except String A) (field : String) :
    List String → Except GoErr (List A)
  | [] => .ok []
  | p :: rest =>
    match pf p with
    | .error cause => .error (.floatFormat field cause)
    | .ok v =>
      match parseVals pf field rest with
      | .error e => .error e
      | .ok vs => .ok (v :: vs)

/-- The tail of parseFloats after the separator has been chosen: the count
bound check (line 347) followed by the token loop. -/
def parseFloatsParts {A : Type} (pf : String → Except String A)
    (pname fname field : String) (parts : List String) (mn mx : Nat) :
    Except GoErr (Option (List A)) :=
  if parts.length < mn || parts.length > mx then
    .error (.fieldErr pname fname "Invalid number of float32 values")
  else
    match parseVals pf field parts with
    | .error e => .error e
    | .ok vs => .ok (some vs)

/-- parseFloats (builder.go lines 332-361): trim spaces, the empty field is
the absent result, split on "," when a comma occurs anywhere and on " "
otherwise, then bound-check and parse the tokens.  `.ok none` is the Go
`nil, nil` return. -/
def parseFloats {A : Type} (pf : String → Except String A)
    (pname fname field : String) (mn mx : Nat) :
    Except GoErr (Option (List A)) :=
  let f := stringsTrim field
  if f = "" then .ok none
  else
    parseFloatsParts pf pname fname f
      (if containsChar f ',' then stringsSplit f ',' else stringsSplit f ' ') mn mx

/-- parseBorderSizes (builder.go lines 284-294): parseFloats with bounds
[1,4]; one value broadcasts to the four sides; otherwise the four slice
indices 0..3 are read unconditionally, which panics when only 2 or 3 values
were parsed. -/
def parseBorderSizes {A : Type} (pf : String → Except String A)
    (pname fname field : String) :
    GoRes (Except GoErr (Option (BorderSizes A))) :=
  match parseFloats pf pname fname field 1 4 with
  | .error e => .ret (.error e)
  | .ok none => .ret (.ok none)
  | .ok (some va) =>
    if va.length = 1 then
      match va.get? 0 with
      | some v => .ret (.ok (some ⟨v, v, v, v⟩))
      | none => .panic "runtime error: index out of range"
    else
      match va.get? 0, va.get? 1, va.get? 2, va.get? 3 with
      | some v0, some v1, some v2, some v3 => .ret (.ok (some ⟨v0, v1, v2, v3⟩))
      | _, _, _, _ => .panic "runtime error: index out of range"

/-- The numeric tail of parseColor (builder.go lines 316-324): parseFloats
with bounds [3,4]; three components get alpha 1, otherwise the four indices
0..3 are read. -/
def colorFromFloats {A : Type} [One A] (pf : String → Except String A)
    (pname fname f : String) : GoRes (Except GoErr (Option (Color4 A))) :=
  match parseFloats pf pname fname f 3 4 with
  | .error e => .ret (.error e)
  | .ok none => .panic "runtime error: index out of range"
  | .ok (some va) =>
    if va.length = 3 then
      match va.get? 0, va.get? 1, va.get? 2 with
      | some v0, some v1, some v2 => .ret (.ok (some ⟨v0, v1, v2, 1⟩))
      | _, _, _ => .panic "runtime error: index out of range"
    else
      match va.get? 0, va.get? 1, va.get? 2, va.get? 3 with
      | some v0, some v1, some v2, some v3 => .ret (.ok (some ⟨v0, v1, v2, v3⟩))
      | _, _, _, _ => .panic "runtime error: index out of range"

/-- parseColor (builder.go lines 300-325): empty field is absent; a name
whose `math32.ColorUint` (oracle `cu`) is nonzero resolves via
`Color.SetName` (oracle `sn`) with alpha 1; any other non-empty field goes to
the numeric path. -/
def parseColor {A : Type} [One A] (pf : String → Except String A)
    (cu : String → Nat) (sn : String → A × A × A)
    (pname fname field : String) : GoRes (Except GoErr (Option (Color4 A))) :=
  let f := stringsTrim field
  if f = "" then .ret (.ok none)
  else
    if cu f ≠ 0 then
      match sn f with
      | (r, g, b) => .ret (.ok (some ⟨r, g, b, 1⟩))
    else
      colorFromFloats pf pname fname f

/-- A concrete instance of the `strconv.ParseFloat` oracle used by the
witnesses: natural-number literals, with a fixed-shape cause text otherwise. -/
def pfNat (s : String) : Except String Nat :=
  if s.data ≠ [] && s.data.all (fun c => c.isDigit) then
    .ok (s.data.foldl (fun n c => n * 10 + (c.toNat - 48)) 0)
  else
    .error ("invalid syntax:" ++ s)


/-- The layoutAttr record (builder.go lines 66-68). -/
structure layoutAttr where
  type : String
deriving DecidableEq

/-- The panelStyle record (builder.go lines 25-31). -/
structure panelStyle where
  borders : String
  paddings : String
  borderColor : String
  bgColor : String
  fgColor : String
deriving DecidableEq

/-- The panelStyles record (builder.go lines 33-39). -/
structure panelStyles where
  normal : panelStyle
  over : panelStyle
  focus : panelStyle
  pressed : panelStyle
  disabled : panelStyle
deriving DecidableEq

/-- The panelDesc record (builder.go lines 41-64), with the children nested
recursively.  Numeric (float32) fields have the abstract component type `A`. -/
inductive panelDesc (A : Type) where
  | mk (type name : String)
       (posx posy width height : A)
       (margins borders borderColor paddings color : String)
       (enabled visible renderable : Bool)
       (children : List (panelDesc A))
       (layout : layoutAttr)
       (styles : Option panelStyles)
       (text : String)
       (fontSize fontDPI : Option A)
       (placeHolder : String)
       (maxLength : Option Nat)

def panelDesc.type {A : Type} : panelDesc A → String
  | .mk t _ _ _ _ _ _ _ _ _ _ _ _ _ _ _ _ _ _ _ _ _ => t

def panelDesc.posx {A : Type} : panelDesc A → A
  | .mk _ _ px _ _ _ _ _ _ _ _ _ _ _ _ _ _ _ _ _ _ _ => px

def panelDesc.posy {A : Type} : panelDesc A → A
  | .mk _ _ _ py _ _ _ _ _ _ _ _ _ _ _ _ _ _ _ _ _ _ => py

def panelDesc.width {A : Type} : panelDesc A → A
  | .mk _ _ _ _ w _ _ _ _ _ _ _ _ _ _ _ _ _ _ _ _ _ => w

def panelDesc.height {A : Type} : panelDesc A → A
  | .mk _ _ _ _ _ h _ _ _ _ _ _ _ _ _ _ _ _ _ _ _ _ => h

def panelDesc.margins {A : Type} : panelDesc A → String
  | .mk _ _ _ _ _ _ m _ _ _ _ _ _ _ _ _ _ _ _ _ _ _ => m

def panelDesc.borders {A : Type} : panelDesc A → String
  | .mk _ _ _ _ _ _ _ b _ _ _ _ _ _ _ _ _ _ _ _ _ _ => b

def panelDesc.borderColor {A : Type} : panelDesc A → String
  | .mk _ _ _ _ _ _ _ _ bc _ _ _ _ _ _ _ _ _ _ _ _ _ => bc

def panelDesc.paddings {A : Type} : panelDesc A → String
  | .mk _ _ _ _ _ _ _ _ _ p _ _ _ _ _ _ _ _ _ _ _ _ => p

def panelDesc.color {A : Type} : panelDesc A → String
  | .mk _ _ _ _ _ _ _ _ _ _ c _ _ _ _ _ _ _ _ _ _ _ => c

def panelDesc.children {A : Type} : panelDesc A → List (panelDesc A)
  | .mk _ _ _ _ _ _ _ _ _ _ _ _ _ _ ch _ _ _ _ _ _ _ => ch

def panelDesc.text {A : Type} : panelDesc A → String
  | .mk _ _ _ _ _ _ _ _ _ _ _ _ _ _ _ _ _ tx _ _ _ _ => tx

/-- The constructed widget tree.  Modelled from the spec: the concrete
`Panel` and `Label` widgets are external collaborators (they can be
positioned, have size sets and colors applied, and have children attached);
attaching appends to the parent's ordered child sequence.  A child slot holds
an `Option` because the Go child is an `IPanel` interface value that can be
nil (as `buildEdit` returns). -/
inductive IPanel (A : Type) where
  | panel (width height posx posy : A)
          (margins borders paddings : Option (BorderSizes A))
          (borderColor color : Option (Color4 A))
          (children : List (Option (IPanel A)))
  | label (text : String) (posx posy : A)

/-- The ordered sequence of children attached to a constructed panel. -/
def panChildren {A : Type} : IPanel A → List (Option (IPanel A))
  | .panel _ _ _ _ _ _ _ _ _ ch => ch
  | .label _ _ _ => []

/-- buildLabel (builder.go lines 266-273): NewLabel with the text, positioned
at posx, posy.  Never fails. -/
def buildLabel {A : Type} (pd : panelDesc A) (_pname : String) :
    GoRes (Option (IPanel A) × Option GoErr) :=
  .ret (some (.label pd.text pd.posx pd.posy), none)

/-- buildEdit (builder.go lines 275-278): the unimplemented stub, returning
the Go pair nil, nil - no panel and no error. -/
def buildEdit {A : Type} (_pd : panelDesc A) (_pname : String) :
    GoRes (Option (IPanel A) × Option GoErr) :=
  .ret (none, none)

mutual

/-- build (builder.go lines 179-201).  The in-place mutation
`parent.Add(pan)` is modelled by threading the parent's child list:
`parentKids` is `some` of that list when `parent != nil`, and the returned
third component is the list after the `Add`.  The type switch of lines
184-193 computes `r`, the (pan, err) pair; its Panel arm inlines the body of
buildPanel (lines 203-264) so that the recursion into the children is
structural - the named `buildPanel` and `buildDispatch` defined below are
the same code factored out, and `build_eq_dispatch` proves the two
presentations equal. -/
def build {A : Type} [One A] (pf : String → Except String A)
    (cu : String → Nat) (sn : String → A × A × A) :
    panelDesc A → String → Option (List (Option (IPanel A))) →
    GoRes (Option (IPanel A) × Option GoErr × Option (List (Option (IPanel A))))
  | pd@(.mk t _ posx posy width height margins borders borderColor paddings color
      _ _ _ ch _ _ _ _ _ _ _), pname, parentKids =>
    let r : GoRes (Option (IPanel A) × Option GoErr) :=
      if t = descTypePanel then
        match parseBorderSizes pf pname fieldMargins margins with
        | .panic m => .panic m
        | .ret (.error e) => .ret (none, some e)
        | .ret (.ok mar) =>
          match parseBorderSizes pf pname fieldBorders borders with
          | .panic m => .panic m
          | .ret (.error e) => .ret (none, some e)
          | .ret (.ok bor) =>
            match parseColor pf cu sn pname fieldBorderColor borderColor with
            | .panic m => .panic m
            | .ret (.error e) => .ret (none, some e)
            | .ret (.ok bcol) =>
              match parseBorderSizes pf pname fieldPaddings paddings with
              | .panic m => .panic m
              | .ret (.error e) => .ret (none, some e)
              | .ret (.ok pad) =>
                match parseColor pf cu sn pname fieldColor color with
                | .panic m => .panic m
                | .ret (.error e) => .ret (none, some e)
                | .ret (.ok col) =>
                  match buildChildren pf cu sn ch pname [] with
                  | .panic m => .panic m
                  | .ret (some e, _) => .ret (none, some e)
                  | .ret (none, kids) =>
                    .ret (some (.panel width height posx posy
                      mar bor pad bcol col kids), none)
      else if t = descTypeLabel then buildLabel pd pname
      else if t = descTypeEdit then buildEdit pd pname
      else .ret (none, some (.invalidType t))
    match r with
    | .panic m => .panic m
    | .ret (_, some e) => .ret (none, some e, parentKids)
    | .ret (pan, none) => .ret (pan, none, parentKids.map (fun ks => ks ++ [pan]))
termination_by structural pd => pd

/-- The children loop of buildPanel (builder.go lines 254-261): each child is
built with the panel under construction as parent (so `build` already
appends it once), and then `pan.Add(child)` appends it again; a child
failure aborts the loop with that error. -/
def buildChildren {A : Type} [One A] (pf : String → Except String A)
    (cu : String → Nat) (sn : String → A × A × A) :
    List (panelDesc A) → String → List (Option (IPanel A)) →
    GoRes (Option GoErr × List (Option (IPanel A)))
  | [], _, kids => .ret (none, kids)
  | c :: rest, pname, kids =>
    match build pf cu sn c pname (some kids) with
    | .panic m => .panic m
    | .ret (_, some e, _) => .ret (some e, kids)
    | .ret (child, none, ks) =>
      buildChildren pf cu sn rest pname ((ks.getD kids) ++ [child])
termination_by structural cs => cs

end

/-- buildPanel (builder.go lines 203-264): NewPanel(width, height) positioned
at posx, posy; then margins, borders, border color, paddings and color are
resolved in that order, failing fast; then the children loop.  A field that
resolves to the absent value leaves the corresponding setter uncalled
(`none` in the record).  This is the code inlined in the Panel arm of
`build`, factored out under its source name. -/
def buildPanel {A : Type} [One A] (pf : String → Except String A)
    (cu : String → Nat) (sn : String → A × A × A)
    (pd : panelDesc A) (pname : String) :
    GoRes (Option (IPanel A) × Option GoErr) :=
  match parseBorderSizes pf pname fieldMargins pd.margins with
  | .panic m => .panic m
  | .ret (.error e) => .ret (none, some e)
  | .ret (.ok mar) =>
    match parseBorderSizes pf pname fieldBorders pd.borders with
    | .panic m => .panic m
    | .ret (.error e) => .ret (none, some e)
    | .ret (.ok bor) =>
      match parseColor pf cu sn pname fieldBorderColor pd.borderColor with
      | .panic m => .panic m
      | .ret (.error e) => .ret (none, some e)
      | .ret (.ok bcol) =>
        match parseBorderSizes pf pname fieldPaddings pd.paddings with
        | .panic m => .panic m
        | .ret (.error e) => .ret (none, some e)
        | .ret (.ok pad) =>
          match parseColor pf cu sn pname fieldColor pd.color with
          | .panic m => .panic m
          | .ret (.error e) => .ret (none, some e)
          | .ret (.ok col) =>
            match buildChildren pf cu sn pd.children pname [] with
            | .panic m => .panic m
            | .ret (some e, _) => .ret (none, some e)
            | .ret (none, kids) =>
              .ret (some (.panel pd.width pd.height pd.posx pd.posy
                mar bor pad bcol col kids), none)

/-- The type switch of build (builder.go lines 184-193): route to the
constructor selected by the type discriminator, or fail with the
invalid-type error naming the discriminator. -/
def buildDispatch {A : Type} [One A] (pf : String → Except String A)
    (cu : String → Nat) (sn : String → A × A × A)
    (pd : panelDesc A) (pname : String) :
    GoRes (Option (IPanel A) × Option GoErr) :=
  if pd.type = descTypePanel then buildPanel pf cu sn pd pname
  else if pd.type = descTypeLabel then buildLabel pd pname
  else if pd.type = descTypeEdit then buildEdit pd pname
  else .ret (none, some (.invalidType pd.type))

/-- The Builder record (builder.go lines 20-23): the held description
mapping (a Go map, kept as an association list with unique keys) and the
first-level panels. -/
structure Builder (A : Type) where
  desc : List (String × panelDesc A)
  panels : List (Option (IPanel A))

/-- The two decode shapes `yaml.Unmarshal` is asked for by ParseString.
Modelled from the spec: the YAML decoder is an external collaborator; each
attempt either yields a value of the requested shape or the decoder's error
text. -/
structure Yaml (A : Type) where
  asPanel : String → Except String (panelDesc A)
  asMap : String → Except String (List (String × panelDesc A))

/-- ParseString (builder.go lines 95-119): decode as a single panelDesc; on
a decode error return it at once; a non-empty type discriminator makes the
held mapping the single entry under the empty name; otherwise decode as a
map of descriptions, returning its error or replacing the held mapping.
The method's receiver is threaded: the second component is the builder
after the call. -/
def ParseString {A : Type} (y : Yaml A) (b : Builder A) (desc : String) :
    Option GoErr × Builder A :=
  match y.asPanel desc with
  | .error e => (some (.yamlErr e), b)
  | .ok pd =>
    if pd.type ≠ "" then (none, { b with desc := [("", pd)] })
    else
      match y.asMap desc with
      | .error e => (some (.yamlErr e), b)
      | .ok pdm => (none, { b with desc := pdm })

/-- Build (builder.go lines 167-174): look the name up in the held mapping,
failing with the not-found error, otherwise run the recursive builder with
no parent.  The receiver is threaded unchanged: no assignment in Build or in
the recursive builder writes the Builder fields. -/
def Build {A : Type} [One A] (pf : String → Except String A)
    (cu : String → Nat) (sn : String → A × A × A)
    (b : Builder A) (name : String) :
    GoRes ((Option (IPanel A) × Option GoErr) × Builder A) :=
  match b.desc.lookup name with
  | none => .ret ((none, some (.objNotFound name)), b)
  | some pd =>
    match build pf cu sn pd name none with
    | .panic m => .panic m
    | .ret (pan, err, _) => .ret ((pan, err), b)

/-- A concrete color-name oracle for the witnesses: red is a known name with
a nonzero packed value; black is a known name too, but its packed value
0x000000 is zero, exactly the case claim C10 is about; everything else is
unknown (also zero). -/
def cuNat (s : String) : Nat :=
  if s = "red" then 16711680 else 0

/-- A concrete SetName oracle for the witnesses. -/
def snNat (s : String) : Nat × Nat × Nat :=
  if s = "red" then (1, 0, 0) else (0, 0, 0)

/-- A description with every field defaulted, for building concrete inputs:
only the type, text and children are set. -/
def mkDesc (t tx : String) (cs : List (panelDesc Nat)) : panelDesc Nat :=
  .mk t "" 0 0 0 0 "" "" "" "" "" true true true cs ⟨""⟩ none tx none none "" none

/-- The panel produced by a successful parentless build, and `none` when the
build failed or panicked; used to state the attach-order theorem. -/
def panOf {A : Type}
    (r : GoRes (Option (IPanel A) × Option GoErr × Option (List (Option (IPanel A))))) :
    Option (IPanel A) :=
  match r with
  | .ret (p, none, _) => p
  | _ => none

/-- A builder holding one description of type Edit under the name "e". -/
def editBuilder : Builder Nat :=
  ⟨[("e", mkDesc "Edit" "" [])], []⟩

/-- A builder with an empty held mapping. -/
def emptyBuilder : Builder Nat :=
  ⟨[], []⟩

/-- The label descriptions used as concrete children. -/
def labelDescA : panelDesc Nat := mkDesc "Label" "a" []

def labelDescB : panelDesc Nat := mkDesc "Label" "b" []

/-- A panel description with the two label children, all fields defaulted. -/
def twoChildPanel : panelDesc Nat := mkDesc "Panel" "" [labelDescA, labelDescB]

/-- The labels the two child descriptions build to. -/
def labelPanA : IPanel Nat := .label "a" 0 0

def labelPanB : IPanel Nat := .label "b" 0 0

/-- A decoder oracle mirroring the real YAML behavior on the text
"name:\n  type: Panel": decoding it as a single panelDesc fails, because the
top-level key collides with the panelDesc field `name` and its mapping value
cannot fill that string field, while decoding the same text as a map of
named descriptions succeeds.  Used against claim C6. -/
def yCex : Yaml Nat :=
  ⟨fun _ => .error "cannot unmarshal map into string field",
   fun t => if t = "name:\n  type: Panel" then .ok [("name", mkDesc "Panel" "" [])]
            else .error "yaml: bad"⟩

/-- A decoder oracle for the success path: the first attempt decodes with an
empty discriminator and the second yields a one-entry mapping. -/
def yOk : Yaml Nat :=
  ⟨fun _ => .ok (mkDesc "" "" []),
   fun _ => .ok [("x", mkDesc "Panel" "" [])]⟩

theorem stringsTrim_idem (s : String) : stringsTrim (stringsTrim s) = stringsTrim s := by
  unfold stringsTrim
  congr 1
  have h1 : List.dropWhile (fun c => c = ' ')
      (List.rdropWhile (fun c => c = ' ') (s.data.dropWhile (fun c => c = ' '))) =
      List.rdropWhile (fun c => c = ' ') (s.data.dropWhile (fun c => c = ' ')) := by
    rw [List.dropWhile_eq_self_iff]
    intro hl
    have hpre := List.rdropWhile_prefix (fun c => c = ' ')
      (s.data.dropWhile (fun c => c = ' '))
    have hlen : 0 < (s.data.dropWhile (fun c => c = ' ')).length :=
      lt_of_lt_of_le hl hpre.length_le
    have hz := List.dropWhile_get_zero_not (fun c => c = ' ') s.data hlen
    simp only [List.get_eq_getElem] at hz ⊢
    have hEq := hpre.getElem hl
    simp only [hEq]
    exact hz
  rw [h1, List.rdropWhile_idempotent]

theorem parseVals_error_shape {A : Type} (pf : String → Except String A)
    (field : String) (parts : List String) (e : GoErr)
    (h : parseVals pf field parts = .error e) :
    ∃ cause, e = .floatFormat field cause := by
  induction parts with
  | nil => simp [parseVals] at h
  | cons p rest ih =>
    unfold parseVals at h
    cases hp : pf p with
    | error cause =>
      rw [hp] at h
      exact ⟨cause, by cases h; rfl⟩
    | ok v =>
      rw [hp] at h
      cases hr : parseVals pf field rest with
      | error e2 =>
        rw [hr] at h
        cases h
        exact ih hr
      | ok vs => rw [hr] at h; cases h

theorem parseFloatsParts_error_shape {A : Type} (pf : String → Except String A)
    (pname fname field : String) (parts : List String) (mn mx : Nat) (e : GoErr)
    (h : parseFloatsParts pf pname fname field parts mn mx = .error e) :
    e = .fieldErr pname fname "Invalid number of float32 values" ∨
      ∃ cause, e = .floatFormat field cause := by
  unfold parseFloatsParts at h
  by_cases hb : (decide (parts.length < mn) || decide (parts.length > mx)) = true
  · rw [if_pos hb] at h
    cases h
    exact Or.inl rfl
  · rw [if_neg hb] at h
    cases hv : parseVals pf field parts with
    | error e2 =>
      rw [hv] at h
      cases h
      exact Or.inr (parseVals_error_shape pf _ _ _ hv)
    | ok vs => rw [hv] at h; cases h

theorem parseFloats_error_shape {A : Type} (pf : String → Except String A)
    (pname fname field : String) (mn mx : Nat) (e : GoErr)
    (h : parseFloats pf pname fname field mn mx = .error e) :
    e = .fieldErr pname fname "Invalid number of float32 values" ∨
      ∃ cause, e = .floatFormat (stringsTrim field) cause := by
  unfold parseFloats at h
  by_cases h0 : stringsTrim field = ""
  · rw [if_pos h0] at h; cases h
  · rw [if_neg h0] at h
    exact parseFloatsParts_error_shape pf pname fname _ _ mn mx e h

theorem build_eq_dispatch {A : Type} [One A] (pf : String → Except String A)
    (cu : String → Nat) (sn : String → A × A × A)
    (pd : panelDesc A) (pname : String)
    (pk : Option (List (Option (IPanel A)))) :
    build pf cu sn pd pname pk =
      match buildDispatch pf cu sn pd pname with
      | .panic m => .panic m
      | .ret (_, some e) => .ret (none, some e, pk)
      | .ret (pan, none) => .ret (pan, none, pk.map (fun ks => ks ++ [pan])) := by
  cases pd
  rfl

theorem build_withParent {A : Type} [One A] (pf : String → Except String A)
    (cu : String → Nat) (sn : String → A × A × A)
    (c : panelDesc A) (pname : String) (p : Option (IPanel A))
    (h : build pf cu sn c pname none = .ret (p, none, none))
    (kids : List (Option (IPanel A))) :
    build pf cu sn c pname (some kids) = .ret (p, none, some (kids ++ [p])) := by
  rw [build_eq_dispatch] at h ⊢
  cases hd : buildDispatch pf cu sn c pname with
  | panic m => rw [hd] at h; simp at h
  | ret pr =>
    rw [hd] at h
    obtain ⟨pan, err⟩ := pr
    cases err with
    | some e => simp at h
    | none =>
      simp at h
      subst h
      rfl

/-- C2: parseBorderSizes on one number broadcasts it to the four sides and
on four numbers assigns them in the order top, right, bottom, left; but on
exactly 2 or exactly 3 numbers it does not return a FieldCountError - it
reads the slice out of range and panics.  The first two conjuncts evaluate
the compliant counts; the last two exhibit the crash the claim rules out. -/
theorem parseBorderSizes_counts :
    parseBorderSizes pfNat "o" "margins" "2" =
      .ret (.ok (some ⟨2, 2, 2, 2⟩)) ∧
    parseBorderSizes pfNat "o" "margins" "1,2,3,4" =
      .ret (.ok (some ⟨1, 2, 3, 4⟩)) ∧
    parseBorderSizes pfNat "o" "margins" "1,2" =
      .panic "runtime error: index out of range" ∧
    parseBorderSizes pfNat "o" "margins" "1,2,3" =
      .panic "runtime error: index out of range" := by
  refine ⟨by decide, by decide, by decide, by decide⟩

/-- C3: with the held mapping holding an Edit description under "e", Build
returns the Go pair nil, nil - no constructed object and no error - because
buildEdit is a stub returning neither; this exhibits the outcome the claim
says never happens. -/
theorem Build_edit_returns_neither :
    Build pfNat cuNat snNat editBuilder "e" = .ret ((none, none), editBuilder) := rfl

/-- C7: whenever ParseString returns an error, the builder it returns is the
receiver unchanged - the held description mapping is only replaced after the
input fully decodes. -/
theorem ParseString_error_keeps_state {A : Type} (y : Yaml A) (b : Builder A)
    (t : String) (e : GoErr) (h : (ParseString y b t).1 = some e) :
    (ParseString y b t).2 = b := by
  unfold ParseString at h ⊢
  cases hp : y.asPanel t with
  | error e2 => rfl
  | ok pd =>
    rw [hp] at h
    by_cases ht : pd.type ≠ ""
    · simp [ht] at h
    · cases hm : y.asMap t with
      | error e2 => simp [ht]
      | ok m =>
        rw [hm] at h
        simp [ht] at h

/-- C7 witness: a concrete failing parse (the decode oracle rejects "z")
leaves the empty builder unchanged. -/
theorem ParseString_error_keeps_state_witness :
    (ParseString yCex emptyBuilder "z").2 = emptyBuilder :=
  ParseString_error_keeps_state yCex emptyBuilder "z"
    (.yamlErr "cannot unmarshal map into string field") rfl

/-- C9: Build on a name absent from the held mapping fails with the
name-not-found error carrying that name, and returns the receiver - and with
it the held mapping - unchanged. -/
theorem Build_unknown_name {A : Type} [One A] (pf : String → Except String A)
    (cu : String → Nat) (sn : String → A × A × A)
    (b : Builder A) (name : String) (h : b.desc.lookup name = none) :
    Build pf cu sn b name = .ret ((none, some (.objNotFound name)), b) := by
  unfold Build
  rw [h]

/-- C9 witness: looking up the name "x" in the builder that only holds "e"
fails with the not-found error and keeps the builder. -/
theorem Build_unknown_name_witness :
    Build pfNat cuNat snNat editBuilder "x" =
      .ret ((none, some (.objNotFound "x")), editBuilder) :=
  Build_unknown_name pfNat cuNat snNat editBuilder "x" rfl

/-- C1 counterexample: a panel description with two label children builds,
but the attached child sequence has four entries - each label twice - so it
is not the two-entry description-order sequence the claim asserts (each
child is attached once by the recursive build call and once more by the
parent loop). -/
theorem buildPanel_two_children_counterexample :
    buildPanel pfNat cuNat snNat twoChildPanel "n" =
      .ret (some (.panel 0 0 0 0 none none none none none
        [some labelPanA, some labelPanA, some labelPanB, some labelPanB]), none) ∧
    twoChildPanel.children.length = 2 ∧
    ([some labelPanA, some labelPanA, some labelPanB, some labelPanB] :
        List (Option (IPanel Nat))).length ≠ twoChildPanel.children.length :=
  ⟨rfl, rfl, by decide⟩

/-- C1 amended: when every child of the list builds successfully on its own,
the children loop of buildPanel terminates without error and the parent's
attached child sequence extends, for each child in description order, by that
child twice (once from the build call's parent attach, once from the loop's
own attach), so child i occupies attached positions 2i and 2i+1. -/
theorem buildChildren_attaches_each_child_twice {A : Type} [One A]
    (pf : String → Except String A) (cu : String → Nat) (sn : String → A × A × A)
    (cs : List (panelDesc A)) (pname : String)
    (h : ∀ c ∈ cs, ∃ p, build pf cu sn c pname none = .ret (p, none, none))
    (kids : List (Option (IPanel A))) :
    buildChildren pf cu sn cs pname kids =
      .ret (none, kids ++ cs.flatMap (fun c =>
        [panOf (build pf cu sn c pname none), panOf (build pf cu sn c pname none)])) := by
  induction cs generalizing kids with
  | nil => simp [buildChildren]
  | cons c rest ih =>
    obtain ⟨p, hp⟩ := h c (List.mem_cons_self c rest)
    rw [buildChildren]
    rw [build_withParent pf cu sn c pname p hp kids]
    show buildChildren pf cu sn rest pname ((some (kids ++ [p])).getD kids ++ [p]) = _
    rw [ih (fun d hd => h d (List.mem_cons_of_mem _ hd))]
    simp [panOf, hp, List.append_assoc]

/-- C1 witness for the amended theorem: the two label children are each
attached twice, in description order. -/
theorem buildChildren_attaches_each_child_twice_witness :
    buildChildren pfNat cuNat snNat [labelDescA, labelDescB] "n" [] =
      .ret (none, [some labelPanA, some labelPanA, some labelPanB, some labelPanB]) := by
  have hA : build pfNat cuNat snNat labelDescA "n" none =
      .ret (some labelPanA, none, none) := rfl
  have hB : build pfNat cuNat snNat labelDescB "n" none =
      .ret (some labelPanB, none, none) := rfl
  have h : ∀ c ∈ [labelDescA, labelDescB],
      ∃ p, build pfNat cuNat snNat c "n" none = .ret (p, none, none) := by
    intro c hc
    simp only [List.mem_cons, List.not_mem_nil, or_false] at hc
    rcases hc with rfl | rfl
    · exact ⟨some labelPanA, hA⟩
    · exact ⟨some labelPanB, hB⟩
  rw [buildChildren_attaches_each_child_twice pfNat cuNat snNat
    [labelDescA, labelDescB] "n" h []]
  simp [panOf, hA, hB]

/-- C4 counterexample: the discriminators the code accepts are capitalized,
so the lowercase string "panel" is not routed to the panel constructor - it
falls to the default branch and fails with the invalid-type error, contrary
to the claim that "panel" dispatches without an unknown-type failure. -/
theorem build_lowercase_panel_counterexample :
    build pfNat cuNat snNat (mkDesc "panel" "" []) "n" none =
      .ret (none, some (.invalidType "panel"), none) := rfl

/-- C4 amended: the recursive builder routes a description whose
discriminator is "Panel", "Label" or "Edit" to the matching constructor
(buildPanel, buildLabel, buildEdit), and fails with the invalid-type error
naming the discriminator on every other string; the error arises at
construction, not at parse. -/
theorem build_dispatch_on_type {A : Type} [One A] (pf : String → Except String A)
    (cu : String → Nat) (sn : String → A × A × A)
    (pd : panelDesc A) (pname : String)
    (pk : Option (List (Option (IPanel A)))) :
    (pd.type = descTypePanel → build pf cu sn pd pname pk =
      (match buildPanel pf cu sn pd pname with
       | .panic m => .panic m
       | .ret (_, some e) => .ret (none, some e, pk)
       | .ret (pan, none) => .ret (pan, none, pk.map (fun ks => ks ++ [pan])))) ∧
    (pd.type = descTypeLabel → build pf cu sn pd pname pk =
      .ret (some (.label pd.text pd.posx pd.posy), none,
        pk.map (fun ks => ks ++ [some (.label pd.text pd.posx pd.posy)]))) ∧
    (pd.type = descTypeEdit → build pf cu sn pd pname pk =
      .ret (none, none, pk.map (fun ks => ks ++ [none]))) ∧
    (pd.type ≠ descTypePanel → pd.type ≠ descTypeLabel → pd.type ≠ descTypeEdit →
      build pf cu sn pd pname pk = .ret (none, some (.invalidType pd.type), pk)) := by
  refine ⟨fun h => ?_, fun h => ?_, fun h => ?_, fun h1 h2 h3 => ?_⟩
  · rw [build_eq_dispatch, buildDispatch]
    simp only [h, descTypePanel, descTypeLabel, descTypeEdit, if_true, reduceIte]
  · rw [build_eq_dispatch, buildDispatch]
    simp [h, descTypePanel, descTypeLabel, descTypeEdit, buildLabel]
  · rw [build_eq_dispatch, buildDispatch]
    simp [h, descTypePanel, descTypeLabel, descTypeEdit, buildEdit]
  · rw [build_eq_dispatch, buildDispatch]
    simp [h1, h2, h3]

/-- C4 witness for the amended theorem: the known discriminator "Edit" is
dispatched to the stub constructor, and the unknown string "bogus" fails
with the invalid-type error naming it. -/
theorem build_dispatch_on_type_witness :
    build pfNat cuNat snNat (mkDesc "Edit" "" []) "n" none =
      .ret (none, none, none) ∧
    build pfNat cuNat snNat (mkDesc "bogus" "" []) "n" none =
      .ret (none, some (.invalidType "bogus"), none) := by
  constructor
  · have h := (build_dispatch_on_type pfNat cuNat snNat
      (mkDesc "Edit" "" []) "n" none).2.2.1 rfl
    simpa using h
  · have h := (build_dispatch_on_type pfNat cuNat snNat
      (mkDesc "bogus" "" []) "n" none).2.2.2 (by decide) (by decide) (by decide)
    simpa [mkDesc, panelDesc.type] using h

/-- C5 counterexample: "\t" is surrounding whitespace but not a space
character, so the code does not trim it: instead of the absent result the
claim predicts for whitespace-only text, parseFloats fails with the float
format error on the tab token. -/
theorem parseFloats_tab_counterexample :
    parseFloats pfNat "o" "f" "\t" 1 4 =
      .error (.floatFormat "\t" "invalid syntax:\t") ∧
    parseFloats pfNat "o" "f" "\t" 1 4 ≠ .ok none := by
  exact ⟨by decide, by decide⟩

/-- C5 amended: parseFloats trims surrounding space characters (U+0020
only, not all whitespace) and yields the absent result when the trimmed text
is empty; otherwise a comma anywhere in the text forces splitting on commas
exclusively even when spaces are present, and only comma-free text is split
on the space character. -/
theorem parseFloats_trim_and_split {A : Type} (pf : String → Except String A)
    (pname fname field : String) (mn mx : Nat) :
    (stringsTrim field = "" → parseFloats pf pname fname field mn mx = .ok none) ∧
    (containsChar (stringsTrim field) ',' = true →
      parseFloats pf pname fname field mn mx =
        parseFloatsParts pf pname fname (stringsTrim field)
          (stringsSplit (stringsTrim field) ',') mn mx) ∧
    (stringsTrim field ≠ "" → containsChar (stringsTrim field) ',' = false →
      parseFloats pf pname fname field mn mx =
        parseFloatsParts pf pname fname (stringsTrim field)
          (stringsSplit (stringsTrim field) ' ') mn mx) := by
  refine ⟨fun h0 => by simp [parseFloats, h0], fun hc => ?_,
    fun h0 hc => by simp [parseFloats, h0, hc]⟩
  have h0 : stringsTrim field ≠ "" := by
    intro h0
    rw [h0] at hc
    exact absurd hc (by decide)
  simp [parseFloats, h0, hc]

/-- C5 witness for the amended theorem: "1, 2" holds both a comma and a
space, and the comma wins - the field is split on commas exclusively. -/
theorem parseFloats_trim_and_split_witness :
    containsChar (stringsTrim "1, 2") ',' = true ∧
    parseFloats pfNat "o" "f" "1, 2" 1 4 =
      parseFloatsParts pfNat "o" "f" (stringsTrim "1, 2")
        (stringsSplit (stringsTrim "1, 2") ',') 1 4 :=
  ⟨by decide, (parseFloats_trim_and_split pfNat "o" "f" "1, 2" 1 4).2.1 (by decide)⟩

/-- C6 counterexample: a text that fails the single-node decode but decodes
as a name-to-description mapping (as the real YAML decoder does on
"name:\n  type: Panel", whose top-level mapping value cannot fill the single
node's string field `name`): the claim demands the parse succeed with that
mapping, but ParseString returns the first attempt's error without ever
trying the second decode. -/
theorem ParseString_skips_map_attempt_counterexample :
    yCex.asMap "name:\n  type: Panel" = .ok [("name", mkDesc "Panel" "" [])] ∧
    ParseString yCex emptyBuilder "name:\n  type: Panel" =
      (some (.yamlErr "cannot unmarshal map into string field"), emptyBuilder) := by
  constructor
  · simp [yCex]
  · rfl

/-- C6 amended: ParseString tries the mapping decode only when the
single-node decode itself succeeds; if that first decode yields an empty
discriminator and the mapping decode succeeds, parse succeeds and the held
mapping becomes that mapping - but when the first decode errors, ParseString
returns that error at once without attempting the mapping decode. -/
theorem ParseString_two_attempts {A : Type} (y : Yaml A) (b : Builder A)
    (t : String) :
    (∀ pd m, y.asPanel t = .ok pd → pd.type = "" → y.asMap t = .ok m →
      ParseString y b t = (none, { b with desc := m })) ∧
    (∀ e, y.asPanel t = .error e →
      ParseString y b t = (some (.yamlErr e), b)) := by
  constructor
  · intro pd m hp ht hm
    simp [ParseString, hp, ht, hm]
  · intro e hp
    simp [ParseString, hp]

/-- C6 witness for the amended theorem: the oracle decodes "m" to an
empty-discriminator node first, so the mapping attempt runs and its
one-entry mapping becomes the held mapping. -/
theorem ParseString_two_attempts_witness :
    ParseString yOk emptyBuilder "m" =
      (none, { emptyBuilder with desc := [("x", mkDesc "Panel" "" [])] }) :=
  (ParseString_two_attempts yOk emptyBuilder "m").1 (mkDesc "" "" [])
    [("x", mkDesc "Panel" "" [])] rfl rfl rfl

theorem fieldErr_msg_carries (p f m : String) :
    containsStr (msgOf (.fieldErr p f m)) p ∧ containsStr (msgOf (.fieldErr p f m)) f := by
  constructor
  · exact ⟨"Error in object:".data, (" field:" ++ f ++ " -> " ++ m).data, by
      simp [msgOf, String.data_append, List.append_assoc]⟩
  · exact ⟨("Error in object:" ++ p ++ " field:").data, (" -> " ++ m).data, by
      simp [msgOf, String.data_append, List.append_assoc]⟩

theorem parseBorderSizes_error_src {A : Type} (pf : String → Except String A)
    (pname fname field : String) (e : GoErr)
    (hb : parseBorderSizes pf pname fname field = .ret (.error e)) :
    parseFloats pf pname fname field 1 4 = .error e := by
  unfold parseBorderSizes at hb
  cases hf : parseFloats pf pname fname field 1 4 with
  | error e2 =>
    rw [hf] at hb
    simp at hb
    rw [hb]
  | ok vo =>
    rw [hf] at hb
    exfalso
    rcases vo with _ | va
    · simp at hb
    · by_cases hl : va.length = 1
      · simp only [if_pos hl] at hb
        split at hb <;> simp at hb
      · simp only [if_neg hl] at hb
        split at hb <;> simp at hb

theorem parseColor_error_src {A : Type} [One A] (pf : String → Except String A)
    (cu : String → Nat) (sn : String → A × A × A)
    (pname fname field : String) (e : GoErr)
    (hc : parseColor pf cu sn pname fname field = .ret (.error e)) :
    parseFloats pf pname fname (stringsTrim field) 3 4 = .error e := by
  unfold parseColor at hc
  by_cases h0 : stringsTrim field = ""
  · rw [if_pos h0] at hc
    simp at hc
  · rw [if_neg h0] at hc
    by_cases hcu : cu (stringsTrim field) ≠ 0
    · rw [if_pos hcu] at hc
      rcases hsn : sn (stringsTrim field) with ⟨r, g, bl⟩
      rw [hsn] at hc
      simp at hc
    · rw [if_neg hcu] at hc
      unfold colorFromFloats at hc
      cases hf : parseFloats pf pname fname (stringsTrim field) 3 4 with
      | error e2 =>
        rw [hf] at hc
        simp at hc
        rw [hc]
      | ok vo =>
        rw [hf] at hc
        exfalso
        rcases vo with _ | va
        · simp at hc
        · by_cases hl : va.length = 3
          · simp only [if_pos hl] at hc
            split at hc <;> simp at hc
          · simp only [if_neg hl] at hc
            split at hc <;> simp at hc

/-- C8 counterexample: an unparsable size-set component makes the resolver
fail with the float-format error, whose message interpolates only the field
text and the strconv cause - it carries neither the node name "NODE" nor the
field label "FLD" the claim requires. -/
theorem sizeSet_format_error_lacks_context :
    parseBorderSizes pfNat "NODE" "FLD" "x" =
      .ret (.error (.floatFormat "x" "invalid syntax:x")) ∧
    ¬ containsStr (msgOf (.floatFormat "x" "invalid syntax:x")) "NODE" ∧
    ¬ containsStr (msgOf (.floatFormat "x" "invalid syntax:x")) "FLD" := by
  exact ⟨by decide, by decide, by decide⟩

/-- C8 amended: every error produced while resolving a size-set or color
field is either the wrong-count error - which does carry the node name and
the field label in its message - or the float-format error, which carries
the trimmed field text and the underlying cause but not, in general, the
node name or the field label. -/
theorem resolve_error_context {A : Type} [One A] (pf : String → Except String A)
    (cu : String → Nat) (sn : String → A × A × A)
    (pname fname field : String) (e : GoErr)
    (h : parseBorderSizes pf pname fname field = .ret (.error e) ∨
         parseColor pf cu sn pname fname field = .ret (.error e)) :
    (e = .fieldErr pname fname "Invalid number of float32 values" ∧
      containsStr (msgOf e) pname ∧ containsStr (msgOf e) fname) ∨
    ∃ cause, e = .floatFormat (stringsTrim field) cause := by
  cases h with
  | inl hb =>
    rcases parseFloats_error_shape pf pname fname field 1 4 e
      (parseBorderSizes_error_src pf pname fname field e hb) with h1 | ⟨c, h2⟩
    · refine Or.inl ⟨h1, ?_⟩
      rw [h1]
      exact fieldErr_msg_carries pname fname "Invalid number of float32 values"
    · exact Or.inr ⟨c, h2⟩
  | inr hcol =>
    rcases parseFloats_error_shape pf pname fname (stringsTrim field) 3 4 e
      (parseColor_error_src pf cu sn pname fname field e hcol) with h1 | ⟨c, h2⟩
    · refine Or.inl ⟨h1, ?_⟩
      rw [h1]
      exact fieldErr_msg_carries pname fname "Invalid number of float32 values"
    · rw [stringsTrim_idem field] at h2
      exact Or.inr ⟨c, h2⟩

/-- C8 witness for the amended theorem: a five-component size set produces
the wrong-count error, and its message carries the node name "o" and the
field label "m". -/
theorem resolve_error_context_witness :
    ((GoErr.fieldErr "o" "m" "Invalid number of float32 values") =
        .fieldErr "o" "m" "Invalid number of float32 values" ∧
      containsStr (msgOf (GoErr.fieldErr "o" "m" "Invalid number of float32 values")) "o" ∧
      containsStr (msgOf (GoErr.fieldErr "o" "m" "Invalid number of float32 values")) "m") ∨
    ∃ cause, (GoErr.fieldErr "o" "m" "Invalid number of float32 values") =
      .floatFormat (stringsTrim "1,2,3,4,5") cause :=
  resolve_error_context pfNat cuNat snNat "o" "m" "1,2,3,4,5"
    (.fieldErr "o" "m" "Invalid number of float32 values") (Or.inl (by decide))

/-- C10: when the trimmed field is non-empty but the external color-name
lookup returns the packed value 0 - as it does for an unknown name, and also
for a recognized name whose color is pure black - parseColor does not
resolve the text as a name: it falls through to the numeric path, and any
parseFloats failure there (such as a token count other than 3 or 4) becomes
the returned error. -/
theorem parseColor_zero_lookup_goes_numeric {A : Type} [One A]
    (pf : String → Except String A) (cu : String → Nat) (sn : String → A × A × A)
    (pname fname field : String)
    (h1 : stringsTrim field ≠ "") (h2 : cu (stringsTrim field) = 0) :
    parseColor pf cu sn pname fname field =
      colorFromFloats pf pname fname (stringsTrim field) ∧
    (∀ e, parseFloats pf pname fname (stringsTrim field) 3 4 = .error e →
      parseColor pf cu sn pname fname field = .ret (.error e)) := by
  have hmain : parseColor pf cu sn pname fname field =
      colorFromFloats pf pname fname (stringsTrim field) := by
    unfold parseColor
    rw [if_neg h1, if_neg (by simp [h2])]
  refine ⟨hmain, fun e he => ?_⟩
  rw [hmain]
  unfold colorFromFloats
  rw [he]

/-- C10 witness: "black" is a recognized name whose packed color value is 0,
so it is not resolved as a name; it is not 3 or 4 numeric components either,
so parseColor fails with the wrong-count error instead of resolving it. -/
theorem parseColor_zero_lookup_goes_numeric_witness :
    stringsTrim "black" ≠ "" ∧ cuNat (stringsTrim "black") = 0 ∧
    parseColor pfNat cuNat snNat "o" "color" "black" =
      .ret (.error (.fieldErr "o" "color" "Invalid number of float32 values")) :=
  ⟨by decide, by decide,
    (parseColor_zero_lookup_goes_numeric pfNat cuNat snNat "o" "color" "black"
      (by decide) (by decide)).2 _ (by decide)⟩

end GuiBuilder
